import Mathlib

/-!
Package `accesslog`, the HTTP access-logging middleware of `logs.go`: a shallow
embedding of the Go code and the properties of its natural-language
specification.

The package is effectful: it reads the clock, writes to a file and calls the
response sink of the HTTP server.  A Go computation is embedded as a tree of
the primitive effects it performs (`Prog`), each effect carrying the
continuation that receives the answer of the environment.  `Prog.run` executes
such a tree against an explicit `World`.

Scope of the model.

* A `Handler` is any such tree: it may branch on every answer it gets, it
  always returns without panic, and it reaches its response sink through the
  three methods of `http.ResponseWriter` only.  A handler that asserts
  `http.Flusher` on its sink is an `AssertingHandler`.
* A status code is a Go `int`; the package copies and prints it and computes
  nothing from it, so it is an `Int` here.  A `time.Duration` is an `Int`
  count of nanoseconds; the saturation of `time.Since` beyond 292 years is
  left out.
* Of the packages `time`, `fmt`, `log` and `os` only what `logs.go` calls is
  modelled, after their documented behaviour.
-/

namespace accesslog

/-! ## The environment: clock, response sink, files -/

/-- A reading of `time.Now()`: the civil wall-clock fields used by the two
time layouts of the package, and the monotonic reading (nanoseconds) used by
`time.Since`. -/
structure Time where
  year : Nat
  month : Nat
  day : Nat
  hour : Nat
  minute : Nat
  second : Nat
  weekday : Nat
  zone : String
  mono : Int
deriving DecidableEq, Repr, Inhabited

/-- A `time.Duration`: a signed count of nanoseconds. -/
abbrev Duration := Int

/-- A file handle (`*os.File`): an index into the table of opened files. -/
abbrev Fd := Nat

/-- One operation received by the real response sink (`http.ResponseWriter` of
the server): `w.Header().Set(key, value)`, `w.Write(body)`,
`w.WriteHeader(code)`. -/
inductive SinkOp where
  | header (key value : String)
  | write (body : String)
  | writeHeader (code : Int)
deriving DecidableEq, Repr

/-- A node of the file system: a directory, or a regular file holding the
chunks appended to it, one chunk per successful `Write` call. -/
inductive Node where
  | dir
  | file (content : List String)
deriving DecidableEq, Repr

/-- An entry of the table of opened files. -/
structure OpenFile where
  path : String
  closed : Bool
deriving DecidableEq, Repr

/-- One `Write` call made on a file handle, with its outcome. -/
structure WriteCall where
  fd : Fd
  data : String
  ok : Bool
deriving DecidableEq, Repr

/-- The state of everything outside the package.

* `clock i` is the `i`-th reading of `time.Now()`; `ticks` readings were taken.
* `sink` lists the operations the real response sink has received;
  `sinkReply` is the result `(n, err != nil)` the sink gives to a `Write`,
  as a function of what it has received.
* `disk` is the file system, `denied` the paths the process may not write,
  `fds` the table of opened files.
* `writes` lists every `Write` call made on a file handle; `faults i` tells
  whether the operating system fails the `i`-th of them (disk full, ...). -/
structure World where
  clock : Nat → Time
  ticks : Nat
  sinkReply : List SinkOp → Nat × Bool
  sink : List SinkOp
  disk : List (String × Node)
  denied : List String
  fds : List OpenFile
  faults : Nat → Bool
  writes : List WriteCall

/-! ## Go computations -/

/-- A Go computation returning an `α`, as the tree of its primitive effects.
The three operations on the response sink are addressed to the
`http.ResponseWriter` the running handler was given. -/
inductive Prog (α : Type) : Type where
  | pure (a : α)
  | header (key value : String) (k : Prog α)
  | write (body : String) (k : Nat → Bool → Prog α)
  | writeHeader (code : Int) (k : Prog α)
  | timeNow (k : Time → Prog α)
  | openFile (path : String) (k : Except String Fd → Prog α)
  | fileWrite (fd : Fd) (data : String) (k : Bool → Prog α)
  | fileClose (fd : Fd) (k : Bool → Prog α)

namespace Prog

/-- Sequencing of Go statements. -/
def bind {α β : Type} : Prog α → (α → Prog β) → Prog β
  | .pure a, f => f a
  | .header key value k, f => .header key value (k.bind f)
  | .write body k, f => .write body (fun n e => (k n e).bind f)
  | .writeHeader code k, f => .writeHeader code (k.bind f)
  | .timeNow k, f => .timeNow (fun t => (k t).bind f)
  | .openFile path k, f => .openFile path (fun r => (k r).bind f)
  | .fileWrite fd data k, f => .fileWrite fd data (fun e => (k e).bind f)
  | .fileClose fd k, f => .fileClose fd (fun e => (k e).bind f)

end Prog

instance : Monad Prog where
  pure := Prog.pure
  bind := Prog.bind

/-! ## How the environment answers -/

/-- First node stored under `path`. -/
def findNode : List (String × Node) → String → Option Node
  | [], _ => none
  | (p, n) :: rest, path => if p = path then some n else findNode rest path

/-- Append one chunk to the regular file(s) stored under `path`. -/
def appendChunk : List (String × Node) → String → String → List (String × Node)
  | [], _, _ => []
  | (p, .file c) :: rest, path, data =>
    (p, .file (if p = path then c ++ [data] else c)) :: appendChunk rest path data
  | (p, .dir) :: rest, path, data => (p, .dir) :: appendChunk rest path data

/-- Parent directory of a path: what precedes its last slash (`/` for a
top-level name, `.` for a name without slash). -/
def dirOf (path : String) : String :=
  let cs := path.toList.reverse
  if cs.contains '/' then
    let parent := ((cs.dropWhile (fun c => c != '/')).drop 1).reverse
    if parent.isEmpty then "/" else String.mk parent
  else "."

namespace World

/-- The chunks stored in the regular file at `path` (none when there is no
such file). -/
def content (s : World) (path : String) : List String :=
  match findNode s.disk path with
  | some (.file c) => c
  | _ => []

/-- The log behind a file handle: the chunks of the file it was opened on. -/
def log (s : World) (fd : Fd) : List String :=
  match s.fds[fd]? with
  | some f => s.content f.path
  | none => []

/-- The real response sink receives one operation. -/
def recv (s : World) (op : SinkOp) : World :=
  { s with sink := s.sink ++ [op] }

/-- One reading of the clock. -/
def now (s : World) : Time × World :=
  (s.clock s.ticks, { s with ticks := s.ticks + 1 })

/-- The call `os.OpenFile(path, os.O_CREATE|os.O_APPEND|os.O_WRONLY, 0644)`: it
fails on a directory, on a path the process may not write, and on a missing
file whose parent is not a writable directory; otherwise it yields a fresh
handle, creating the file empty when it is absent. -/
def openFile (s : World) (path : String) : Except String Fd × World :=
  match findNode s.disk path with
  | some .dir => (.error ("open " ++ path ++ ": is a directory"), s)
  | some (.file _) =>
    if path ∈ s.denied then (.error ("open " ++ path ++ ": permission denied"), s)
    else (.ok s.fds.length, { s with fds := s.fds ++ [⟨path, false⟩] })
  | none =>
    match findNode s.disk (dirOf path) with
    | some .dir =>
      if dirOf path ∈ s.denied then (.error ("open " ++ path ++ ": permission denied"), s)
      else (.ok s.fds.length,
        { s with disk := s.disk ++ [(path, .file [])], fds := s.fds ++ [⟨path, false⟩] })
    | some (.file _) => (.error ("open " ++ path ++ ": not a directory"), s)
    | none => (.error ("open " ++ path ++ ": no such file or directory"), s)

/-- Whether a `Write` on the handle would succeed now: the handle is open on a
regular file and the operating system does not fail this call. -/
def writable (s : World) (fd : Fd) : Bool :=
  match s.fds[fd]? with
  | some f =>
    !f.closed && !s.faults s.writes.length &&
      (match findNode s.disk f.path with
       | some (.file _) => true
       | _ => false)
  | none => false

/-- The call `f.Write(data)` on a handle opened for append: the data is
appended as one chunk, or the call fails and leaves the file as it is.  The
result is `err != nil`. -/
def fileWrite (s : World) (fd : Fd) (data : String) : Bool × World :=
  match s.fds[fd]? with
  | some f =>
    if s.writable fd then
      (false, { s with disk := appendChunk s.disk f.path data,
                       writes := s.writes ++ [⟨fd, data, true⟩] })
    else (true, { s with writes := s.writes ++ [⟨fd, data, false⟩] })
  | none => (true, { s with writes := s.writes ++ [⟨fd, data, false⟩] })

/-- The call `f.Close()`: an error (`true`) on a handle that is not open. -/
def fileClose (s : World) (fd : Fd) : Bool × World :=
  match s.fds[fd]? with
  | some f =>
    if f.closed then (true, s)
    else (false, { s with fds := s.fds.set fd ⟨f.path, true⟩ })
  | none => (true, s)

end World

namespace Prog

/-- Execute a Go computation in a world: its result and the world it leaves. -/
def run {α : Type} : Prog α → World → α × World
  | .pure a, s => (a, s)
  | .header key value k, s => k.run (s.recv (.header key value))
  | .write body k, s =>
    let s1 := s.recv (.write body)
    (k (s1.sinkReply s1.sink).1 (s1.sinkReply s1.sink).2).run s1
  | .writeHeader code k, s => k.run (s.recv (.writeHeader code))
  | .timeNow k, s => (k s.now.1).run s.now.2
  | .openFile path k, s => (k (s.openFile path).1).run (s.openFile path).2
  | .fileWrite fd data k, s => (k (s.fileWrite fd data).1).run (s.fileWrite fd data).2
  | .fileClose fd k, s => (k (s.fileClose fd).1).run (s.fileClose fd).2

/-- The statement `t := time.Now()`. -/
def now : Prog Time := .timeNow .pure

/-- The call `time.Since(start)`: the monotonic time elapsed since `start`. -/
def since (start : Time) : Prog Duration := .timeNow (fun t => .pure (t.mono - start.mono))

end Prog

/-! ## The Go standard library, as far as the package uses it -/

/-- Decimal digits of `i`, zero-padded on the left to `wid` characters. -/
def itoa (i wid : Nat) : String :=
  String.mk (List.replicate (wid - (Nat.toDigits 10 i).length) '0' ++ Nat.toDigits 10 i)

/-- English name of a `time.Weekday` (0 is Sunday), as the layouts abbreviate it. -/
def weekdayName (d : Nat) : String :=
  ["Sun", "Mon", "Tue", "Wed", "Thu", "Fri", "Sat"].getD (d % 7) "Sun"

/-- English name of a `time.Month` (1 is January), as the layouts abbreviate it. -/
def monthName (m : Nat) : String :=
  ["Jan", "Feb", "Mar", "Apr", "May", "Jun", "Jul", "Aug", "Sep", "Oct", "Nov", "Dec"].getD
    (m - 1) "Jan"

/-- The clock part `15:04:05` shared by both layouts. -/
def clockOfDay (t : Time) : String :=
  itoa t.hour 2 ++ ":" ++ itoa t.minute 2 ++ ":" ++ itoa t.second 2

/-- The call `t.Format(time.RFC1123)`, layout `Mon, 02 Jan 2006 15:04:05 MST`. -/
def Time.FormatRFC1123 (t : Time) : String :=
  weekdayName t.weekday ++ ", " ++ itoa t.day 2 ++ " " ++ monthName t.month ++ " " ++
    itoa t.year 4 ++ " " ++ clockOfDay t ++ " " ++ t.zone

/-- The helper `fmtFrac` of package `time`: the `prec` low decimal digits of
`v` as a fraction without trailing zeros (the decimal point included, nothing
when the fraction is zero), and `v / 10^prec`. -/
def fmtFrac (v : Nat) : (prec : Nat) → Bool → List Char → List Char × Nat
  | 0, printing, acc => (if printing then '.' :: acc else acc, v)
  | prec + 1, printing, acc =>
    let digit := v % 10
    let printing := printing || digit != 0
    fmtFrac (v / 10) prec printing
      (if printing then Char.ofNat (digit + 48) :: acc else acc)

/-- The method `Duration.String`: `0s`, `1.5µs`, `2ms`, `1m2.5s`, `3h0m0s`, with
a leading minus sign for a negative duration. -/
def Duration.String (d : Duration) : String :=
  let u := d.natAbs
  let sign := if d < 0 then "-" else ""
  if u = 0 then "0s"
  else if u < 1000 then sign ++ toString u ++ "ns"
  else if u < 1000000 then
    sign ++ toString (fmtFrac u 3 false []).2 ++ String.mk (fmtFrac u 3 false []).1 ++ "µs"
  else if u < 1000000000 then
    sign ++ toString (fmtFrac u 6 false []).2 ++ String.mk (fmtFrac u 6 false []).1 ++ "ms"
  else
    let secs := (fmtFrac u 9 false []).2
    let tail := toString (secs % 60) ++ String.mk (fmtFrac u 9 false []).1 ++ "s"
    let mins := secs / 60
    if mins = 0 then sign ++ tail
    else if mins / 60 = 0 then sign ++ toString (mins % 60) ++ "m" ++ tail
    else sign ++ toString (mins / 60) ++ "h" ++ toString (mins % 60) ++ "m" ++ tail

/-- An operand of `fmt.Sprintf`. -/
inductive Arg where
  | str (s : String)
  | int (i : Int)
  | dur (d : Duration)

/-- What one verb prints for one operand: `%s` prints a string as it is and a
`Duration` through its `String` method, `%d` prints an integer in decimal; a
verb that does not fit the operand prints the `%!verb(type=value)` notice. -/
def Arg.format : Arg → Char → String
  | .str s, v => if v = 's' || v = 'v' then s else "%!" ++ v.toString ++ "(string=" ++ s ++ ")"
  | .int i, v =>
    if v = 'd' || v = 'v' then toString i else "%!" ++ v.toString ++ "(int=" ++ toString i ++ ")"
  | .dur d, v => if v = 's' || v = 'v' then Duration.String d else toString d

/-- The scan of `fmt.Sprintf` over the format: text is copied, `%%` prints a
percent sign, any other verb consumes the next operand. -/
def sprintfScan : List Char → List Arg → List Char
  | [], _ => []
  | c :: rest, args =>
    if c = '%' then
      match rest, args with
      | [], _ => "%!(NOVERB)".toList
      | v :: cs, [] =>
        if v = '%' then '%' :: sprintfScan cs []
        else ("%!" ++ v.toString ++ "(MISSING)").toList ++ sprintfScan cs []
      | v :: cs, a :: more =>
        if v = '%' then '%' :: sprintfScan cs (a :: more)
        else (a.format v).toList ++ sprintfScan cs more
    else c :: sprintfScan rest args

/-- The call `fmt.Sprintf(format, args...)`. -/
def Sprintf (format : String) (args : List Arg) : String :=
  String.mk (sprintfScan format.toList args)

namespace log

/-- Flag `log.Ldate`. -/
def Ldate : Nat := 1

/-- Flag `log.Ltime`. -/
def Ltime : Nat := 2

/-- Flag `log.LstdFlags = Ldate | Ltime`. -/
def LstdFlags : Nat := Ldate ||| Ltime

/-- A `log.Logger`: the text put before every line, the header flags, and the
destination. -/
structure Logger where
  pre : String
  flag : Nat
  out : Fd
deriving DecidableEq, Repr

/-- The constructor `log.New`: destination, leading text, flags. -/
def New (out : Fd) (pre : String) (flag : Nat) : Logger :=
  { pre := pre, flag := flag, out := out }

/-- The header `formatHeader` puts before the message: the text given at
construction, the date `2006/01/02 ` under `Ldate`, the time `15:04:05 ` under
`Ltime`. -/
def formatHeader (pre : String) (flag : Nat) (t : Time) : String :=
  pre ++
    (if flag &&& Ldate ≠ 0 then
      itoa t.year 4 ++ "/" ++ itoa t.month 2 ++ "/" ++ itoa t.day 2 ++ " " else "") ++
    (if flag &&& Ltime ≠ 0 then clockOfDay t ++ " " else "")

/-- The line `Println(v)` hands to the destination: header, message, newline. -/
def line (l : Logger) (t : Time) (v : String) : String :=
  formatHeader l.pre l.flag t ++ v ++ "\n"

/-- The method `Println(v)` for one string operand: the clock is read for the
header, the line goes to the destination in a single `Write`, and the error of
that `Write` is dropped. -/
def Logger.Println (l : Logger) (v : String) : Prog Unit :=
  .timeNow (fun t => .fileWrite l.out (line l t v) (fun _ => .pure ()))

end log

/-! ## The package `accesslog` -/

/-- The part of `url.URL` the package reads. -/
structure URL where
  Path : String
deriving DecidableEq, Repr

/-- The part of `http.Request` the package reads. -/
structure Request where
  RemoteAddr : String
  Method : String
  URL : URL
deriving DecidableEq, Repr

/-- An `http.Handler`: its `ServeHTTP(w, r)` as the computation it performs for
the request `r`, the sink operations being addressed to `w`. -/
abbrev Handler := Request → Prog Unit

/-- The struct `Logger`. -/
structure Logger where
  logFormat : String
  logFile : Fd
  logger : log.Logger
deriving DecidableEq, Repr

/-- The function `NewLogger`. -/
def NewLogger (logFilePath : String) (logFormat : String) : Prog (Except String Logger) :=
  .openFile logFilePath fun
    | .error err => .pure (.error ("could not open log file: " ++ err))
    | .ok logFile =>
      let logger := log.New logFile "" log.LstdFlags
      .pure (.ok { logFormat := logFormat, logFile := logFile, logger := logger })

/-- The method `Logger.Close`; the result is `err != nil`. -/
def Logger.Close (l : Logger) : Prog Bool :=
  .fileClose l.logFile .pure

/-- The message `logRequestDetails` formats, given the timestamp it read. -/
def Logger.logMessage (l : Logger) (timestamp : String) (r : Request) (statusCode : Int)
    (duration : Duration) (stage : String) : String :=
  if l.logFormat = "json" then
    Sprintf ("\x7b\"timestamp\": \"%s\", \"stage\": \"%s\", \"client_ip\": \"%s\", " ++
        "\"method\": \"%s\", \"path\": \"%s\", \"status_code\": %d, \"duration\": \"%s\"\x7d")
      [.str timestamp, .str stage, .str r.RemoteAddr, .str r.Method, .str r.URL.Path,
        .int statusCode, .dur duration]
  else
    Sprintf "%s [%s] %s %s %s %d %s"
      [.str timestamp, .str stage, .str r.RemoteAddr, .str r.Method, .str r.URL.Path,
        .int statusCode, .dur duration]

/-- The method `Logger.logRequestDetails`. -/
def Logger.logRequestDetails (l : Logger) (r : Request) (statusCode : Int)
    (duration : Duration) (stage : String) : Prog Unit := do
  let timestamp := (← Prog.now).FormatRFC1123
  let logMessage := l.logMessage timestamp r statusCode duration stage
  l.logger.Println logMessage

/-- The struct `statusCodeResponseWriter`.  Its embedded `http.ResponseWriter`
is the sink the decorated handler was given; `Header` and `Write` are promoted
from it unchanged. -/
structure statusCodeResponseWriter where
  statusCode : Int
deriving DecidableEq, Repr

/-- The method `statusCodeResponseWriter.WriteHeader`; the result is the
receiver after the call. -/
def statusCodeResponseWriter.WriteHeader (w : statusCodeResponseWriter) (statusCode : Int) :
    Prog statusCodeResponseWriter :=
  let w := { w with statusCode := statusCode }
  .writeHeader statusCode (.pure w)

/-- The call `next.ServeHTTP(rec, r)` with a `statusCodeResponseWriter` as the
sink: every `WriteHeader` of the handler goes through the method above, every
`Header` and `Write` reaches the embedded sink through promotion, and all
other effects of the handler are its own.  The result is the receiver after
the handler returned. -/
def statusCodeResponseWriter.serve (w : statusCodeResponseWriter) :
    Prog Unit → Prog statusCodeResponseWriter
  | .pure _ => .pure w
  | .header key value k => .header key value (serve w k)
  | .write body k => .write body (fun n e => serve w (k n e))
  | .writeHeader code k => (w.WriteHeader code).bind (fun w1 => serve w1 k)
  | .timeNow k => .timeNow (fun t => serve w (k t))
  | .openFile path k => .openFile path (fun r => serve w (k r))
  | .fileWrite fd data k => .fileWrite fd data (fun e => serve w (k e))
  | .fileClose fd k => .fileClose fd (fun e => serve w (k e))

/-- The method `Logger.LogRequest`. -/
def Logger.LogRequest (l : Logger) (next : Handler) : Handler := fun r => do
  let start ← Prog.now
  let rec0 : statusCodeResponseWriter := { statusCode := 0 }
  l.logRequestDetails r rec0.statusCode (← Prog.since start) "START"
  let rec1 ← rec0.serve (next r)
  let duration ← Prog.since start
  l.logRequestDetails r rec1.statusCode duration "END"

/-- What no computation undoes: the oracles of the environment stay, the
clock only advances, the sink and the files only receive more, and a handle
stays on its path. -/
structure World.Extends (s t : World) : Prop where
  clock : t.clock = s.clock
  sinkReply : t.sinkReply = s.sinkReply
  faults : t.faults = s.faults
  denied : t.denied = s.denied
  ticks : s.ticks ≤ t.ticks
  sink : s.sink <+: t.sink
  writes : s.writes <+: t.writes
  fds : ∀ (fd : Fd) (f : OpenFile), s.fds[fd]? = some f → ∃ c, t.fds[fd]? = some (OpenFile.mk f.path c)
  content : ∀ path, s.content path <+: t.content path


/-! ## Vocabulary of the specification -/

/-- The status code an observer holds after the sink operations `ops` of a
handler, starting from `code`: the code of the last `WriteHeader` among them,
or `code` when there is none. -/
def lastStatus : List SinkOp → Int → Int
  | [], code => code
  | .writeHeader c :: ops, _ => lastStatus ops c
  | _ :: ops, code => lastStatus ops code

/-- The codes of the `WriteHeader` calls among sink operations, in order. -/
def statusCodes : List SinkOp → List Int
  | [] => []
  | .writeHeader c :: ops => c :: statusCodes ops
  | _ :: ops => statusCodes ops

namespace World

/-- The world after `n` more readings of the clock. -/
def advance (s : World) (n : Nat) : World :=
  { s with ticks := s.ticks + n }

/-- The operations the real response sink received since the world `s`. -/
def opsSince (t s : World) : List SinkOp :=
  t.sink.drop s.sink.length

/-- The `Write` calls made on file handles since the world `s`. -/
def writesSince (t s : World) : List WriteCall :=
  t.writes.drop s.writes.length

/-- The chunks the log behind `fd` received since the world `s`. -/
def logSince (t s : World) (fd : Fd) : List String :=
  (t.log fd).drop (s.log fd).length

end World

/-- The line of the entry that `logRequestDetails` writes when it is called in
the world `s`: the timestamp is the next reading of the clock and the header
of the line writer the one after. -/
def Logger.entry (l : Logger) (s : World) (r : Request) (statusCode : Int)
    (duration : Duration) (stage : String) : String :=
  log.line l.logger (s.clock (s.ticks + 1))
    (l.logMessage (s.clock s.ticks).FormatRFC1123 r statusCode duration stage)

/-- The world a call of `logRequestDetails` in `s` leaves: two readings of the
clock and one `Write` of the entry on the destination of the line writer. -/
def Logger.afterEntry (l : Logger) (s : World) (r : Request) (statusCode : Int)
    (duration : Duration) (stage : String) : World :=
  ((s.advance 2).fileWrite l.logger.out (l.entry s r statusCode duration stage)).2

/-- The time the START entry reports: between the first two readings of the
clock. -/
def startDuration (s : World) : Duration :=
  (s.clock (s.ticks + 1)).mono - (s.clock s.ticks).mono

/-- The world in which the wrapped handler starts when the decorated handler
is called in `s`: the clock was read twice and the START entry written. -/
def Logger.handlerStart (l : Logger) (r : Request) (s : World) : World :=
  l.afterEntry (s.advance 2) r 0 (startDuration s) "START"

/-- A computation whose operations on the response sink depend on nothing but
the sink: from two worlds with the same sink it drives the sink alike, whatever
the clock and the files are. -/
def SinkDetermined (p : Prog Unit) : Prop :=
  ∀ s t : World, s.sink = t.sink → s.sinkReply = t.sinkReply → (p.run s).2.sink = (p.run t).2.sink

/-- The time the END entry reports when the decorated handler was called in
`s` and the wrapped handler left the world `t`. -/
def endDuration (s t : World) : Duration :=
  (t.clock t.ticks).mono - (s.clock s.ticks).mono

/-! ## JSON, as far as the entries need it

An entry in the `json` format is meant to be one JSON object whose members
are strings and integers.  The reader below accepts exactly the JSON texts of
that shape (RFC 8259: whitespace, string escapes, integers without fraction
and exponent). -/

/-- A member value of an entry: a string or an integer. -/
inductive JsonValue where
  | str (s : String)
  | int (i : Int)
deriving DecidableEq, Repr

/-- Skip JSON whitespace. -/
def skipSpace : List Char → List Char
  | [] => []
  | c :: cs => if c = ' ' ∨ c = '\t' ∨ c = '\n' ∨ c = '\r' then skipSpace cs else c :: cs

/-- Value of a hexadecimal digit. -/
def hexDigit (c : Char) : Option Nat :=
  if '0' ≤ c ∧ c ≤ '9' then some (c.toNat - 48)
  else if 'a' ≤ c ∧ c ≤ 'f' then some (c.toNat - 87)
  else if 'A' ≤ c ∧ c ≤ 'F' then some (c.toNat - 55)
  else none

/-- The character a one-letter escape stands for. -/
def unescape (c : Char) : Option Char :=
  if c = '"' then some '"'
  else if c = '\\' then some '\\'
  else if c = '/' then some '/'
  else if c = 'b' then some (Char.ofNat 8)
  else if c = 'f' then some (Char.ofNat 12)
  else if c = 'n' then some '\n'
  else if c = 'r' then some '\r'
  else if c = 't' then some '\t'
  else none

/-- Read a JSON string after its opening quote: the decoded characters up to
the closing quote, and the rest of the input.  A raw control character, an
unknown escape and a missing closing quote are errors.  The first argument
bounds the number of steps. -/
def readString : Nat → List Char → Option (List Char × List Char)
  | 0, _ => none
  | _, [] => none
  | fuel + 1, c :: cs =>
    if c = '"' then some ([], cs)
    else if c = '\\' then
      match cs with
      | [] => none
      | e :: rest =>
        if e = 'u' then
          match rest with
          | h1 :: h2 :: h3 :: h4 :: rest4 =>
            match hexDigit h1, hexDigit h2, hexDigit h3, hexDigit h4 with
            | some a, some b, some c2, some d =>
              (readString fuel rest4).map
                (fun p => (Char.ofNat (((a * 16 + b) * 16 + c2) * 16 + d) :: p.1, p.2))
            | _, _, _, _ => none
          | _ => none
        else
          match unescape e with
          | some d => (readString fuel rest).map (fun p => (d :: p.1, p.2))
          | none => none
    else if c.toNat < 32 then none
    else (readString fuel cs).map (fun p => (c :: p.1, p.2))

/-- The leading decimal digits of the input, and the rest. -/
def readDigits : List Char → List Char × List Char
  | [] => ([], [])
  | c :: cs =>
    if '0' ≤ c ∧ c ≤ '9' then ((c :: (readDigits cs).1), (readDigits cs).2) else ([], c :: cs)

/-- Value of a sequence of decimal digits. -/
def digitsValue (ds : List Char) : Nat :=
  ds.foldl (fun acc c => acc * 10 + (c.toNat - 48)) 0

/-- Read a JSON integer: an optional minus sign, then `0` or digits that do
not start with `0`. -/
def readInt (cs : List Char) : Option (Int × List Char) :=
  let neg := cs.head? = some '-'
  let body := if neg then cs.drop 1 else cs
  let ds := (readDigits body).1
  if ds = [] ∨ (ds.head? = some '0' ∧ ds.length ≠ 1) then none
  else some (if neg then -(digitsValue ds : Int) else (digitsValue ds : Int), (readDigits body).2)

/-- Read a member value: a string or an integer. -/
def readValue (cs : List Char) : Option (JsonValue × List Char) :=
  match cs with
  | [] => none
  | c :: rest =>
    if c = '"' then (readString cs.length rest).map (fun p => (.str (String.mk p.1), p.2))
    else (readInt cs).map (fun p => (.int p.1, p.2))

/-- Read the members of an object up to its closing brace: `"key": value`
separated by commas.  The first argument bounds the number of members. -/
def readMembers : Nat → List Char → Option (List (String × JsonValue) × List Char)
  | 0, _ => none
  | fuel + 1, cs =>
    match skipSpace cs with
    | [] => none
    | q :: cs1 =>
      if q = '"' then
        match readString cs.length cs1 with
        | none => none
        | some (key, cs2) =>
          match skipSpace cs2 with
          | [] => none
          | colon :: cs3 =>
            if colon = ':' then
              match readValue (skipSpace cs3) with
              | none => none
              | some (v, cs4) =>
                match skipSpace cs4 with
                | [] => none
                | sep :: cs5 =>
                  if sep = ',' then
                    (readMembers fuel cs5).map (fun p => ((String.mk key, v) :: p.1, p.2))
                  else if sep = '\x7d' then some ([(String.mk key, v)], cs5)
                  else none
            else none
      else none

/-- Read a text as one JSON object with string and integer members: its
members in order, or nothing when the text is not such an object. -/
def parseJsonObject (text : String) : Option (List (String × JsonValue)) :=
  match skipSpace text.toList with
  | [] => none
  | c :: cs =>
    if c = '\x7b' then
      match skipSpace cs with
      | [] => none
      | d :: rest =>
        if d = '\x7d' then (if skipSpace rest = [] then some [] else none)
        else
          match readMembers text.length cs with
          | none => none
          | some (ms, rest2) => if skipSpace rest2 = [] then some ms else none
    else none

/-- The JSON object an entry of the request `r` is specified to be: the seven
members, the stage one of the two markers, and the three request strings as
the request holds them. -/
def isEntryObject (text : String) (r : Request) : Bool :=
  match parseJsonObject text with
  | some [("timestamp", .str _), ("stage", .str stage), ("client_ip", .str ip),
      ("method", .str method), ("path", .str path), ("status_code", .int _),
      ("duration", .str _)] =>
    (stage = "START" || stage = "END") && ip = r.RemoteAddr && method = r.Method &&
      path = r.URL.Path
  | _ => false

/-- A request whose path holds a double quote (`GET /a%22b`). -/
def quoteRequest : Request :=
  { RemoteAddr := "127.0.0.1:5000", Method := "GET", URL := { Path := "/a\"b" } }

/-- A list of characters that starts with a decimal digit. -/
def StartsWithDigit (l : List Char) : Prop :=
  ∃ c rest, l = c :: rest ∧ '0' ≤ c ∧ c ≤ '9'

/-! ## Sample inputs -/

/-- A clock: Monday 2 November 2026, 09:05, one second and 1500 ns a reading. -/
def sampleClock (i : Nat) : Time :=
  { year := 2026, month := 11, day := 2, hour := 9, minute := 5, second := (7 + i) % 60,
    weekday := 1, zone := "UTC", mono := 1000 + 1500 * i }

/-- A world before any Logger exists: the file `/var/log/access.log` holds one
earlier line and no file is open. -/
def bootWorld : World :=
  { clock := sampleClock, ticks := 0, sinkReply := fun ops => (ops.length, false), sink := [],
    disk := [("/var", .dir), ("/var/log", .dir), ("/var/log/access.log", .file ["old\n"])],
    denied := [], fds := [], faults := fun _ => false, writes := [] }

/-- The world after `NewLogger("/var/log/access.log", _)`: the log file is open
as handle 0. -/
def sampleWorld : World :=
  { bootWorld with fds := [⟨"/var/log/access.log", false⟩] }

/-- The Logger `NewLogger` builds on handle 0. -/
def sampleLogger (logFormat : String) : Logger :=
  { logFormat := logFormat, logFile := 0, logger := log.New 0 "" log.LstdFlags }

/-- The sample world after `Close` was called on the sample Logger. -/
def closedWorld : World :=
  ((sampleLogger "text").Close.run sampleWorld).2

/-- A second Logger, on handle 1. -/
def otherLogger (logFormat : String) : Logger :=
  { logFormat := logFormat, logFile := 1, logger := log.New 1 "" log.LstdFlags }

/-- A request `GET /index.html`. -/
def sampleRequest : Request :=
  { RemoteAddr := "127.0.0.1:5000", Method := "GET", URL := { Path := "/index.html" } }

/-- A handler that sets 404 and then writes a body. -/
def notFoundHandler : Handler :=
  fun _ => .writeHeader 404 (.write "not found" (fun _ _ => .pure ()))

/-- A handler that writes a body and never calls `WriteHeader`. -/
def bodyOnlyHandler : Handler :=
  fun _ => .header "Content-Type" "text/plain" (.write "hello" (fun _ _ => .pure ()))

/-! ## Handlers that inspect the dynamic type of their sink -/

namespace Prog

theorem bind_def {α β : Type} (p : Prog α) (f : α → Prog β) : (p >>= f) = p.bind f := rfl

theorem pure_def {α : Type} (a : α) : (Pure.pure a : Prog α) = Prog.pure a := rfl

theorem run_bind {α β : Type} (p : Prog α) (f : α → Prog β) (s : World) :
    (p.bind f).run s = (f (p.run s).1).run (p.run s).2 := by
  induction p generalizing s with
  | pure a => rfl
  | header key value k ih => simp only [bind, run, ih]
  | write body k ih => simp only [bind, run, ih]
  | writeHeader code k ih => simp only [bind, run, ih]
  | timeNow k ih => simp only [bind, run, ih]
  | openFile path k ih => simp only [bind, run, ih]
  | fileWrite fd data k ih => simp only [bind, run, ih]
  | fileClose fd k ih => simp only [bind, run, ih]

end Prog

theorem findNode_append (d : List (String × Node)) (path q : String) (n : Node) :
    findNode (d ++ [(path, n)]) q =
      match findNode d q with
      | some m => some m
      | none => if path = q then some n else none := by
  induction d with
  | nil => simp [findNode]
  | cons e rest ih =>
    obtain ⟨p, m⟩ := e
    by_cases h : p = q
    · simp [findNode, h]
    · simp [findNode, h, ih]

theorem findNode_appendChunk (d : List (String × Node)) (path data q : String) :
    findNode (appendChunk d path data) q =
      match findNode d q with
      | some (.file c) => some (.file (if q = path then c ++ [data] else c))
      | some .dir => some .dir
      | none => none := by
  induction d with
  | nil => simp [findNode, appendChunk]
  | cons e rest ih =>
    obtain ⟨p, m⟩ := e
    cases m with
    | dir =>
      by_cases h : p = q
      · simp [findNode, appendChunk, h]
      · simp [findNode, appendChunk, h, ih]
    | file c =>
      by_cases h : p = q
      · subst h
        simp [findNode, appendChunk]
      · simp [findNode, appendChunk, h, ih]



namespace World

theorem Extends.refl (s : World) : s.Extends s :=
  ⟨rfl, rfl, rfl, rfl, Nat.le_refl _, List.prefix_refl _, List.prefix_refl _,
    fun _ f h => ⟨f.closed, h⟩, fun _ => List.prefix_refl _⟩

theorem Extends.trans {s t u : World} (h1 : s.Extends t) (h2 : t.Extends u) : s.Extends u where
  clock := h2.clock.trans h1.clock
  sinkReply := h2.sinkReply.trans h1.sinkReply
  faults := h2.faults.trans h1.faults
  denied := h2.denied.trans h1.denied
  ticks := Nat.le_trans h1.ticks h2.ticks
  sink := h1.sink.trans h2.sink
  writes := h1.writes.trans h2.writes
  fds := fun fd f h => by
    obtain ⟨c, hc⟩ := h1.fds fd f h
    exact h2.fds fd ⟨f.path, c⟩ hc
  content := fun path => (h1.content path).trans (h2.content path)

theorem extends_recv (s : World) (op : SinkOp) : s.Extends (s.recv op) :=
  ⟨rfl, rfl, rfl, rfl, Nat.le_refl _, List.prefix_append _ _, List.prefix_refl _,
    fun _ f h => ⟨f.closed, h⟩, fun _ => List.prefix_refl _⟩

theorem extends_now (s : World) : s.Extends s.now.2 :=
  ⟨rfl, rfl, rfl, rfl, Nat.le_succ _, List.prefix_refl _, List.prefix_refl _,
    fun _ f h => ⟨f.closed, h⟩, fun _ => List.prefix_refl _⟩

theorem extends_openFile (s : World) (path : String) : s.Extends (s.openFile path).2 := by
  unfold openFile
  split
  · exact Extends.refl s
  · split
    · exact Extends.refl s
    · refine ⟨rfl, rfl, rfl, rfl, Nat.le_refl _, List.prefix_refl _, List.prefix_refl _, ?_,
        fun _ => List.prefix_refl _⟩
      intro fd f h
      refine ⟨f.closed, ?_⟩
      have hlt : fd < s.fds.length := by
        by_contra hge
        rw [List.getElem?_eq_none (Nat.le_of_not_lt hge)] at h
        exact Option.noConfusion h
      simp only [List.getElem?_append_left hlt, h]
  · rename_i hnone
    split
    · split
      · exact Extends.refl s
      · refine ⟨rfl, rfl, rfl, rfl, Nat.le_refl _, List.prefix_refl _, List.prefix_refl _, ?_, ?_⟩
        · intro fd f h
          refine ⟨f.closed, ?_⟩
          have hlt : fd < s.fds.length := by
            by_contra hge
            rw [List.getElem?_eq_none (Nat.le_of_not_lt hge)] at h
            exact Option.noConfusion h
          simp only [List.getElem?_append_left hlt, h]
        · intro q
          simp only [content, findNode_append]
          cases hq : findNode s.disk q with
          | some m => exact List.prefix_refl _
          | none =>
            simp only
            split <;> simp
    · exact Extends.refl s
    · exact Extends.refl s

theorem extends_fileWrite (s : World) (fd : Fd) (data : String) :
    s.Extends (s.fileWrite fd data).2 := by
  unfold fileWrite
  split
  · rename_i f hf
    split
    · refine ⟨rfl, rfl, rfl, rfl, Nat.le_refl _, List.prefix_refl _, List.prefix_append _ _,
        fun _ g h => ⟨g.closed, h⟩, ?_⟩
      intro q
      simp only [content, findNode_appendChunk]
      cases hq : findNode s.disk q with
      | none => exact List.prefix_refl _
      | some m =>
        cases m with
        | dir => exact List.prefix_refl _
        | file c =>
          simp only
          split
          · exact List.prefix_append _ _
          · exact List.prefix_refl _
    · exact ⟨rfl, rfl, rfl, rfl, Nat.le_refl _, List.prefix_refl _, List.prefix_append _ _,
        fun _ g h => ⟨g.closed, h⟩, fun _ => List.prefix_refl _⟩
  · exact ⟨rfl, rfl, rfl, rfl, Nat.le_refl _, List.prefix_refl _, List.prefix_append _ _,
      fun _ g h => ⟨g.closed, h⟩, fun _ => List.prefix_refl _⟩

theorem extends_fileClose (s : World) (fd : Fd) : s.Extends (s.fileClose fd).2 := by
  unfold fileClose
  split
  · rename_i f hf
    split
    · exact Extends.refl s
    · refine ⟨rfl, rfl, rfl, rfl, Nat.le_refl _, List.prefix_refl _, List.prefix_refl _, ?_,
        fun _ => List.prefix_refl _⟩
      intro fd2 g h
      by_cases hfd : fd = fd2
      · subst hfd
        rw [hf] at h
        cases h
        refine ⟨true, ?_⟩
        have hlt : fd < s.fds.length := by
          by_contra hge
          rw [List.getElem?_eq_none (Nat.le_of_not_lt hge)] at hf
          exact Option.noConfusion hf
        simp [List.getElem?_set_self, hlt]
      · refine ⟨g.closed, ?_⟩
        simp only [List.getElem?_set_ne hfd, h]
  · exact Extends.refl s

end World

theorem Prog.run_extends {α : Type} (p : Prog α) (s : World) : s.Extends (p.run s).2 := by
  induction p generalizing s with
  | pure a => exact World.Extends.refl s
  | header key value k ih => exact (World.extends_recv s _).trans (ih _)
  | write body k ih => exact (World.extends_recv s _).trans (ih _ _ _)
  | writeHeader code k ih => exact (World.extends_recv s _).trans (ih _)
  | timeNow k ih => exact (World.extends_now s).trans (ih _ _)
  | openFile path k ih => exact (World.extends_openFile s path).trans (ih _ _)
  | fileWrite fd data k ih => exact (World.extends_fileWrite s fd data).trans (ih _ _)
  | fileClose fd k ih => exact (World.extends_fileClose s fd).trans (ih _ _)

theorem World.sink_openFile (s : World) (path : String) : (s.openFile path).2.sink = s.sink := by
  unfold World.openFile
  repeat' split
  all_goals rfl

theorem World.sink_fileWrite (s : World) (fd : Fd) (data : String) :
    (s.fileWrite fd data).2.sink = s.sink := by
  unfold World.fileWrite
  repeat' split
  all_goals rfl

theorem World.sink_fileClose (s : World) (fd : Fd) : (s.fileClose fd).2.sink = s.sink := by
  unfold World.fileClose
  repeat' split
  all_goals rfl

theorem World.opsSince_recv {s t : World} {op : SinkOp} (h : (s.recv op).Extends t) :
    t.opsSince s = op :: t.opsSince (s.recv op) := by
  obtain ⟨d, hd⟩ := h.sink
  simp only [World.opsSince, World.recv] at *
  rw [← hd]
  simp [List.append_assoc]

theorem World.opsSince_eq {s u t : World} (h : u.sink = s.sink) : t.opsSince u = t.opsSince s := by
  simp only [World.opsSince, h]

theorem World.opsSince_self (s : World) : s.opsSince s = [] := by
  simp [World.opsSince]

theorem statusCodeResponseWriter.serve_run (w : statusCodeResponseWriter) (p : Prog Unit)
    (s : World) :
    (w.serve p).run s = (⟨lastStatus ((p.run s).2.opsSince s) w.statusCode⟩, (p.run s).2) := by
  induction p generalizing s w with
  | pure a => simp [serve, Prog.run, World.opsSince_self, lastStatus]
  | header key value k ih =>
    simp only [serve, Prog.run, ih]
    rw [World.opsSince_recv (Prog.run_extends k _)]
    simp [lastStatus]
  | write body k ih =>
    simp only [serve, Prog.run, ih]
    rw [World.opsSince_recv (Prog.run_extends _ _)]
    simp [lastStatus]
  | writeHeader code k ih =>
    simp only [serve, WriteHeader, Prog.bind, Prog.run, ih]
    rw [World.opsSince_recv (Prog.run_extends k _)]
    simp [lastStatus]
  | timeNow k ih =>
    simp only [serve, Prog.run, ih]
    rw [World.opsSince_eq (s := s) (u := s.now.2) rfl]
  | openFile path k ih =>
    simp only [serve, Prog.run, ih]
    rw [World.opsSince_eq (s := s) (World.sink_openFile s path)]
  | fileWrite fd data k ih =>
    simp only [serve, Prog.run, ih]
    rw [World.opsSince_eq (s := s) (World.sink_fileWrite s fd data)]
  | fileClose fd k ih =>
    simp only [serve, Prog.run, ih]
    rw [World.opsSince_eq (s := s) (World.sink_fileClose s fd)]
theorem Prog.run_now (s : World) : Prog.now.run s = (s.clock s.ticks, s.advance 1) := rfl

theorem Prog.run_since (start : Time) (s : World) :
    (Prog.since start).run s = ((s.clock s.ticks).mono - start.mono, s.advance 1) := rfl

theorem World.advance_advance (s : World) (a b : Nat) :
    (s.advance a).advance b = s.advance (a + b) := by
  simp [World.advance, Nat.add_assoc]

theorem Logger.logRequestDetails_run (l : Logger) (r : Request) (statusCode : Int)
    (duration : Duration) (stage : String) (s : World) :
    (l.logRequestDetails r statusCode duration stage).run s =
      ((), l.afterEntry s r statusCode duration stage) := by
  simp only [logRequestDetails, Prog.bind_def, Prog.now, log.Logger.Println, Prog.bind, Prog.run,
    afterEntry, entry, World.now, World.advance]

theorem Logger.LogRequest_run (l : Logger) (next : Handler) (r : Request) (s : World) :
    (l.LogRequest next r).run s =
      ((), l.afterEntry (((next r).run (l.handlerStart r s)).2.advance 1) r
        (lastStatus (((next r).run (l.handlerStart r s)).2.opsSince (l.handlerStart r s)) 0)
        ((((next r).run (l.handlerStart r s)).2.clock
            ((next r).run (l.handlerStart r s)).2.ticks).mono - (s.clock s.ticks).mono)
        "END") := by
  simp only [LogRequest, Prog.bind_def, Prog.run_bind, Prog.run_now, Prog.run_since,
    logRequestDetails_run, statusCodeResponseWriter.serve_run, World.advance_advance,
    handlerStart, startDuration]
  rfl

theorem World.writes_fileWrite (s : World) (fd : Fd) (data : String) :
    (s.fileWrite fd data).2.writes = s.writes ++ [⟨fd, data, s.writable fd⟩] := by
  unfold World.fileWrite
  split
  · split
    · rename_i h; simp [h]
    · rename_i h; simp [h]
  · rename_i h; simp [World.writable, h]

theorem World.sinkReply_fileWrite (s : World) (fd : Fd) (data : String) :
    (s.fileWrite fd data).2.sinkReply = s.sinkReply :=
  (World.extends_fileWrite s fd data).sinkReply

theorem World.clock_fileWrite (s : World) (fd : Fd) (data : String) :
    (s.fileWrite fd data).2.clock = s.clock :=
  (World.extends_fileWrite s fd data).clock

theorem World.ticks_fileWrite (s : World) (fd : Fd) (data : String) :
    (s.fileWrite fd data).2.ticks = s.ticks := by
  unfold World.fileWrite
  repeat' split
  all_goals rfl

theorem World.fileWrite_of_not_writable (s : World) (fd : Fd) (data : String)
    (h : s.writable fd = false) :
    s.fileWrite fd data = (true, { s with writes := s.writes ++ [⟨fd, data, false⟩] }) := by
  unfold World.fileWrite
  split
  · simp [h]
  · rfl

theorem Logger.sink_afterEntry (l : Logger) (s : World) (r : Request) (c : Int) (d : Duration)
    (stage : String) : (l.afterEntry s r c d stage).sink = s.sink := by
  simp [afterEntry, World.sink_fileWrite, World.advance]

theorem Logger.sinkReply_afterEntry (l : Logger) (s : World) (r : Request) (c : Int)
    (d : Duration) (stage : String) : (l.afterEntry s r c d stage).sinkReply = s.sinkReply := by
  simp [afterEntry, World.sinkReply_fileWrite, World.advance]

theorem Logger.clock_afterEntry (l : Logger) (s : World) (r : Request) (c : Int)
    (d : Duration) (stage : String) : (l.afterEntry s r c d stage).clock = s.clock := by
  simp [afterEntry, World.clock_fileWrite, World.advance]

theorem Logger.ticks_afterEntry (l : Logger) (s : World) (r : Request) (c : Int)
    (d : Duration) (stage : String) : (l.afterEntry s r c d stage).ticks = s.ticks + 2 := by
  simp [afterEntry, World.ticks_fileWrite, World.advance]

theorem Logger.writes_afterEntry (l : Logger) (s : World) (r : Request) (c : Int)
    (d : Duration) (stage : String) :
    (l.afterEntry s r c d stage).writes =
      s.writes ++ [⟨l.logger.out, l.entry s r c d stage, s.writable l.logger.out⟩] := by
  simp only [afterEntry, World.writes_fileWrite]
  rfl

theorem Logger.sink_handlerStart (l : Logger) (r : Request) (s : World) :
    (l.handlerStart r s).sink = s.sink := by
  simp [handlerStart, sink_afterEntry, World.advance]

theorem Logger.sinkReply_handlerStart (l : Logger) (r : Request) (s : World) :
    (l.handlerStart r s).sinkReply = s.sinkReply := by
  simp [handlerStart, sinkReply_afterEntry, World.advance]

theorem Logger.sink_LogRequest (l : Logger) (next : Handler) (r : Request) (s : World) :
    ((l.LogRequest next r).run s).2.sink = ((next r).run (l.handlerStart r s)).2.sink := by
  rw [LogRequest_run]
  simp [sink_afterEntry, World.advance]

theorem lastStatus_eq (ops : List SinkOp) (code : Int) :
    lastStatus ops code = ((statusCodes ops).getLast?).getD code := by
  induction ops generalizing code with
  | nil => rfl
  | cons op rest ih =>
    cases op with
    | header key value => simp [lastStatus, statusCodes, ih]
    | write body => simp [lastStatus, statusCodes, ih]
    | writeHeader c =>
      simp only [lastStatus, statusCodes, ih]
      cases h : statusCodes rest with
      | nil => simp
      | cons a t => simp [List.getLast?_eq_getLast _ (List.cons_ne_nil a t)]

theorem World.Extends.writes_eq {s t : World} (h : s.Extends t) :
    t.writes = s.writes ++ t.writesSince s := by
  obtain ⟨d, hd⟩ := h.writes
  simp [World.writesSince, ← hd]

theorem World.Extends.sink_eq {s t : World} (h : s.Extends t) :
    t.sink = s.sink ++ t.opsSince s := by
  obtain ⟨d, hd⟩ := h.sink
  simp [World.opsSince, ← hd]

theorem Logger.writes_handlerStart (l : Logger) (r : Request) (s : World) :
    (l.handlerStart r s).writes =
      s.writes ++ [⟨l.logger.out, l.entry (s.advance 2) r 0 (startDuration s) "START",
        s.writable l.logger.out⟩] := by
  simp only [handlerStart, writes_afterEntry]
  rfl

theorem Logger.writes_LogRequest (l : Logger) (next : Handler) (r : Request) (s : World) :
    ((l.LogRequest next r).run s).2.writes =
      s.writes ++
        [⟨l.logger.out, l.entry (s.advance 2) r 0 (startDuration s) "START",
          s.writable l.logger.out⟩] ++
        ((next r).run (l.handlerStart r s)).2.writesSince (l.handlerStart r s) ++
        [⟨l.logger.out,
          l.entry (((next r).run (l.handlerStart r s)).2.advance 1) r
            (lastStatus (((next r).run (l.handlerStart r s)).2.opsSince (l.handlerStart r s)) 0)
            (endDuration s ((next r).run (l.handlerStart r s)).2) "END",
          ((next r).run (l.handlerStart r s)).2.writable l.logger.out⟩] := by
  rw [LogRequest_run, writes_afterEntry, ← writes_handlerStart]
  have h := (Prog.run_extends (next r) (l.handlerStart r s)).writes_eq
  rw [← h]
  rfl

theorem Logger.opsSince_LogRequest (l : Logger) (next : Handler) (r : Request) (s : World) :
    ((l.LogRequest next r).run s).2.opsSince s =
      ((next r).run (l.handlerStart r s)).2.opsSince (l.handlerStart r s) := by
  simp only [World.opsSince, sink_LogRequest, sink_handlerStart]
theorem World.Extends.log_prefix {s t : World} (h : s.Extends t) (fd : Fd) :
    s.log fd <+: t.log fd := by
  unfold World.log
  cases hf : s.fds[fd]? with
  | none => exact List.nil_prefix
  | some f =>
    obtain ⟨c, hc⟩ := h.fds fd f hf
    simp only [hc]
    exact h.content f.path

theorem World.Extends.log_eq {s t : World} (h : s.Extends t) (fd : Fd) :
    t.log fd = s.log fd ++ t.logSince s fd := by
  obtain ⟨d, hd⟩ := h.log_prefix fd
  simp [World.logSince, ← hd]

theorem World.log_advance (s : World) (n : Nat) (fd : Fd) : (s.advance n).log fd = s.log fd := rfl

theorem World.writable_advance (s : World) (n : Nat) (fd : Fd) :
    (s.advance n).writable fd = s.writable fd := rfl

theorem World.log_fileWrite (s : World) (fd : Fd) (data : String) :
    (s.fileWrite fd data).2.log fd = s.log fd ++ (if s.writable fd then [data] else []) := by
  unfold World.fileWrite
  cases hf : s.fds[fd]? with
  | none => simp [World.log, World.writable, hf]
  | some f =>
    by_cases hw : s.writable fd = true
    · simp only [hw, if_true, World.log, hf, World.content, findNode_appendChunk]
      simp only [World.writable, hf] at hw
      cases hn : findNode s.disk f.path with
      | none => simp [hn] at hw
      | some n =>
        cases n with
        | dir => simp [hn] at hw
        | file c => simp
    · simp [hw, World.log, hf, World.content]

theorem Logger.log_afterEntry (l : Logger) (s : World) (r : Request) (c : Int) (d : Duration)
    (stage : String) :
    (l.afterEntry s r c d stage).log l.logger.out =
      s.log l.logger.out ++
        (if s.writable l.logger.out then [l.entry s r c d stage] else []) := by
  simp only [afterEntry, World.log_fileWrite, World.log_advance, World.writable_advance]

theorem Logger.log_LogRequest (l : Logger) (next : Handler) (r : Request) (s : World) :
    ((l.LogRequest next r).run s).2.log l.logger.out =
      s.log l.logger.out ++
        (if s.writable l.logger.out then
          [l.entry (s.advance 2) r 0 (startDuration s) "START"] else []) ++
        ((next r).run (l.handlerStart r s)).2.logSince (l.handlerStart r s) l.logger.out ++
        (if ((next r).run (l.handlerStart r s)).2.writable l.logger.out then
          [l.entry (((next r).run (l.handlerStart r s)).2.advance 1) r
            (lastStatus (((next r).run (l.handlerStart r s)).2.opsSince (l.handlerStart r s)) 0)
            (endDuration s ((next r).run (l.handlerStart r s)).2) "END"] else []) := by
  have h1 : (l.handlerStart r s).log l.logger.out =
      s.log l.logger.out ++ (if s.writable l.logger.out then
          [l.entry (s.advance 2) r 0 (startDuration s) "START"] else []) := by
    simp only [handlerStart, log_afterEntry, World.log_advance, World.writable_advance]
  have h2 := (Prog.run_extends (next r) (l.handlerStart r s)).log_eq l.logger.out
  rw [LogRequest_run, log_afterEntry, World.log_advance, World.writable_advance, h2, h1]
  rfl
theorem Sprintf_text (ts stage addr method path : String) (c : Int) (d : Duration) :
    Sprintf "%s [%s] %s %s %s %d %s"
      [.str ts, .str stage, .str addr, .str method, .str path, .int c, .dur d] =
    ts ++ " [" ++ stage ++ "] " ++ addr ++ " " ++ method ++ " " ++ path ++ " " ++
      toString c ++ " " ++ Duration.String d := by
  have hf : "%s [%s] %s %s %s %d %s".toList =
      ['%', 's', ' ', '[', '%', 's', ']', ' ', '%', 's', ' ', '%', 's', ' ', '%', 's', ' ',
        '%', 'd', ' ', '%', 's'] := by decide
  apply String.ext
  simp [Sprintf, hf, sprintfScan, Arg.format]
theorem World.openFile_error (s : World) (path e : String)
    (h : (s.openFile path).1 = .error e) : (s.openFile path).2 = s := by
  revert h
  unfold World.openFile
  repeat' split
  all_goals first | (intro _; rfl) | (intro h; cases h)

theorem World.openFile_ok (s : World) (path : String) (fd : Fd)
    (h : (s.openFile path).1 = .ok fd) :
    fd = s.fds.length ∧
    (s.openFile path).2.fds = s.fds ++ [⟨path, false⟩] ∧
    (s.openFile path).2.writes = s.writes ∧
    (s.openFile path).2.sink = s.sink ∧
    (s.openFile path).2.ticks = s.ticks ∧
    (∀ q, (s.openFile path).2.content q = s.content q) ∧
    (∃ c, findNode (s.openFile path).2.disk path = some (.file c)) := by
  revert h
  unfold World.openFile
  split
  · intro h; cases h
  · rename_i c hc
    split
    · intro h; cases h
    · intro h
      cases h
      exact ⟨rfl, rfl, rfl, rfl, rfl, fun _ => rfl, ⟨c, hc⟩⟩
  · rename_i hnone
    split
    · split
      · intro h; cases h
      · intro h
        cases h
        refine ⟨rfl, rfl, rfl, rfl, rfl, ?_, ?_⟩
        · intro q
          simp only [World.content, findNode_append]
          cases hq : findNode s.disk q with
          | some m => rfl
          | none =>
            by_cases hp : path = q
            · simp [hp]
            · simp [hp]
        · exact ⟨[], by simp [findNode_append, hnone]⟩
    · intro h; cases h
    · intro h; cases h

theorem digitChar_isDigit (m : Nat) (h : m < 10) :
    '0' ≤ Nat.digitChar m ∧ Nat.digitChar m ≤ '9' := by
  interval_cases m <;> decide

theorem toDigitsCore_startsWithDigit (fuel n : Nat) (ds : List Char)
    (h : StartsWithDigit ds) : StartsWithDigit (Nat.toDigitsCore 10 fuel n ds) := by
  induction fuel generalizing n ds with
  | zero => exact h
  | succ fuel ih =>
    simp only [Nat.toDigitsCore]
    split
    · exact ⟨_, _, rfl, digitChar_isDigit _ (Nat.mod_lt _ (by decide))⟩
    · exact ih _ _ ⟨_, _, rfl, digitChar_isDigit _ (Nat.mod_lt _ (by decide))⟩

theorem toDigits_startsWithDigit (n : Nat) : StartsWithDigit (Nat.toDigits 10 n) := by
  simp only [Nat.toDigits, Nat.toDigitsCore]
  split
  · exact ⟨_, _, rfl, digitChar_isDigit _ (Nat.mod_lt _ (by decide))⟩
  · exact toDigitsCore_startsWithDigit _ _ _
      ⟨_, _, rfl, digitChar_isDigit _ (Nat.mod_lt _ (by decide))⟩

theorem itoa_startsWithDigit (i wid : Nat) : StartsWithDigit (itoa i wid).toList := by
  simp only [itoa]
  cases h : wid - (Nat.toDigits 10 i).length with
  | zero => simpa using toDigits_startsWithDigit i
  | succ k =>
    exact ⟨'0', List.replicate k '0' ++ Nat.toDigits 10 i, by simp [List.replicate_succ],
      by decide, by decide⟩

theorem parseJsonObject_of_startsWithDigit (text : String) (h : StartsWithDigit text.toList) :
    parseJsonObject text = none := by
  obtain ⟨c, rest, hc, h0, h9⟩ := h
  have hne : ∀ d : Char, (d < '0' ∨ '9' < d) → c ≠ d := by
    intro d hd heq
    subst heq
    rcases hd with hd | hd
    · exact absurd h0 (not_le.mpr hd)
    · exact absurd h9 (not_le.mpr hd)
  simp only [parseJsonObject, hc, skipSpace]
  have h1 : c ≠ ' ' := hne _ (Or.inl (by decide))
  have h2 : c ≠ '\t' := hne _ (Or.inl (by decide))
  have h3 : c ≠ '\n' := hne _ (Or.inl (by decide))
  have h4 : c ≠ '\r' := hne _ (Or.inl (by decide))
  have h5 : c ≠ '\x7b' := hne _ (Or.inr (by decide))
  simp [h1, h2, h3, h4, h5]

theorem line_startsWithDigit (out : Fd) (t : Time) (v : String) :
    StartsWithDigit (log.line (log.New out "" log.LstdFlags) t v).toList := by
  obtain ⟨c, rest, hc, hd⟩ := itoa_startsWithDigit t.year 4
  refine ⟨c, rest ++ ("/" ++ itoa t.month 2 ++ "/" ++ itoa t.day 2 ++ " " ++
    (clockOfDay t ++ " ") ++ v ++ "\n").toList, ?_, hd⟩
  have hflag1 : log.LstdFlags &&& log.Ldate ≠ 0 := by decide
  have hflag2 : log.LstdFlags &&& log.Ltime ≠ 0 := by decide
  simp only [log.line, log.New, log.formatHeader, hflag1, hflag2, if_true, ne_eq,
    not_false_eq_true, String.toList, String.data_append] at hc ⊢
  simp [hc]

/-- No line of a Logger built by `NewLogger` is a JSON object, whatever the
format, the request and the clock: the line starts with the year. -/
theorem entry_never_json (logFormat : String) (fd : Fd) (s : World) (r : Request) (c : Int)
    (d : Duration) (stage : String) :
    parseJsonObject
      ((Logger.mk logFormat fd (log.New fd "" log.LstdFlags)).entry s r c d stage) = none :=
  parseJsonObject_of_startsWithDigit _ (line_startsWithDigit _ _ _)

/-! ## The claims of the specification -/

/-- C9.  Write failures are not surfaced.  In every world, whatever the state
of the log file and whichever writes the operating system fails, the decorated
handler returns, having written nothing to the sink itself and having run the
wrapped handler once, for the same request, between its two entries; both
entries are attempted whatever the outcome of the first; a refused write
changes nothing but the record of the call; and a handler driven by the sink
alone drives the sink as in any other world with the same sink, one where
every write succeeds included. -/
theorem C9_write_failures_not_surfaced (l : Logger) (next : Handler) (r : Request) (s : World) :
    (l.LogRequest next r).run s =
      ((), l.afterEntry (((next r).run (l.handlerStart r s)).2.advance 1) r
        (lastStatus (((next r).run (l.handlerStart r s)).2.opsSince (l.handlerStart r s)) 0)
        (endDuration s ((next r).run (l.handlerStart r s)).2) "END") ∧
    ((l.LogRequest next r).run s).2.sink = ((next r).run (l.handlerStart r s)).2.sink ∧
    (l.handlerStart r s).sink = s.sink ∧
    ((l.LogRequest next r).run s).2.writes =
      s.writes ++
        [⟨l.logger.out, l.entry (s.advance 2) r 0 (startDuration s) "START",
          s.writable l.logger.out⟩] ++
        ((next r).run (l.handlerStart r s)).2.writesSince (l.handlerStart r s) ++
        [⟨l.logger.out,
          l.entry (((next r).run (l.handlerStart r s)).2.advance 1) r
            (lastStatus (((next r).run (l.handlerStart r s)).2.opsSince (l.handlerStart r s)) 0)
            (endDuration s ((next r).run (l.handlerStart r s)).2) "END",
          ((next r).run (l.handlerStart r s)).2.writable l.logger.out⟩] ∧
    (∀ (t : World) (fd : Fd) (data : String), t.writable fd = false →
      t.fileWrite fd data = (true, { t with writes := t.writes ++ [⟨fd, data, false⟩] })) ∧
    (SinkDetermined (next r) → ∀ t : World, t.sink = s.sink → t.sinkReply = s.sinkReply →
      ((l.LogRequest next r).run s).2.sink = ((l.LogRequest next r).run t).2.sink) := by
  refine ⟨l.LogRequest_run next r s, l.sink_LogRequest next r s, l.sink_handlerStart r s,
    l.writes_LogRequest next r s, fun t fd data h => t.fileWrite_of_not_writable fd data h, ?_⟩
  intro hdet t hs hr
  rw [l.sink_LogRequest next r s, l.sink_LogRequest next r t]
  apply hdet
  · rw [l.sink_handlerStart, l.sink_handlerStart, hs]
  · rw [l.sinkReply_handlerStart, l.sinkReply_handlerStart, hr]

theorem sinkDetermined_notFoundHandler : SinkDetermined (notFoundHandler sampleRequest) := by
  intro s t hs hr
  simp [notFoundHandler, Prog.run, World.recv, hs, hr]

/-- C9, on the sample request with the log file closed: both writes are
refused, the file keeps its one line, and the sink receives what it receives
in the world where the file is open. -/
theorem C9_write_failures_not_surfaced_witness :
    (((sampleLogger "text").LogRequest notFoundHandler sampleRequest).run closedWorld).1 = () ∧
    (((sampleLogger "text").LogRequest notFoundHandler sampleRequest).run closedWorld).2.disk =
      closedWorld.disk ∧
    ((((sampleLogger "text").LogRequest notFoundHandler sampleRequest).run closedWorld).2.writes.map
      (fun c => c.ok)) = [false, false] ∧
    (((sampleLogger "text").LogRequest notFoundHandler sampleRequest).run closedWorld).2.sink =
      (((sampleLogger "text").LogRequest notFoundHandler sampleRequest).run sampleWorld).2.sink :=
  ⟨rfl, by decide, by decide,
    (C9_write_failures_not_surfaced (sampleLogger "text") notFoundHandler sampleRequest
      closedWorld).2.2.2.2.2 sinkDetermined_notFoundHandler sampleWorld rfl rfl⟩
/-- C1, as stated, fails on a Logger whose file was closed: both writes are
refused and the log stays as it was, without START and END entry. -/
theorem C1_counterexample_closed_logger :
    (((sampleLogger "text").LogRequest notFoundHandler sampleRequest).run closedWorld).2.log 0 =
      closedWorld.log 0 ∧
    ¬ ∃ (startLine endLine : String) (own : List String),
      (((sampleLogger "text").LogRequest notFoundHandler sampleRequest).run closedWorld).2.log 0 =
        closedWorld.log 0 ++ [startLine] ++ own ++ [endLine] := by
  have h : (((sampleLogger "text").LogRequest notFoundHandler sampleRequest).run
      closedWorld).2.log 0 = closedWorld.log 0 := by decide
  refine ⟨h, ?_⟩
  rintro ⟨a, b, own, hab⟩
  rw [h] at hab
  have hlen := congrArg List.length hab
  simp only [List.length_append, List.length_singleton] at hlen
  omega

/-- C1 (amended).  When the log file accepts the START write and, after the
wrapped handler, the END write, one call of the decorated handler first appends
the START entry, with nothing yet sent to the sink and no other write made;
then runs the wrapped handler once; then appends the END entry and nothing
else: the log ends as the log before, the START entry, what the handler itself
logged, the END entry. -/
theorem C1_start_handler_end (l : Logger) (next : Handler) (r : Request) (s : World)
    (hS : s.writable l.logger.out = true)
    (hE : ((next r).run (l.handlerStart r s)).2.writable l.logger.out = true) :
    (l.handlerStart r s).log l.logger.out =
      s.log l.logger.out ++ [l.entry (s.advance 2) r 0 (startDuration s) "START"] ∧
    (l.handlerStart r s).sink = s.sink ∧
    (l.handlerStart r s).writes =
      s.writes ++ [⟨l.logger.out, l.entry (s.advance 2) r 0 (startDuration s) "START", true⟩] ∧
    ((l.LogRequest next r).run s).2 =
      l.afterEntry (((next r).run (l.handlerStart r s)).2.advance 1) r
        (lastStatus (((next r).run (l.handlerStart r s)).2.opsSince (l.handlerStart r s)) 0)
        (endDuration s ((next r).run (l.handlerStart r s)).2) "END" ∧
    ((l.LogRequest next r).run s).2.sink = ((next r).run (l.handlerStart r s)).2.sink ∧
    ((l.LogRequest next r).run s).2.log l.logger.out =
      s.log l.logger.out ++ [l.entry (s.advance 2) r 0 (startDuration s) "START"] ++
        ((next r).run (l.handlerStart r s)).2.logSince (l.handlerStart r s) l.logger.out ++
        [l.entry (((next r).run (l.handlerStart r s)).2.advance 1) r
          (lastStatus (((next r).run (l.handlerStart r s)).2.opsSince (l.handlerStart r s)) 0)
          (endDuration s ((next r).run (l.handlerStart r s)).2) "END"] := by
  refine ⟨?_, l.sink_handlerStart r s, ?_, ?_, l.sink_LogRequest next r s, ?_⟩
  · simp only [Logger.handlerStart, Logger.log_afterEntry, World.log_advance,
      World.writable_advance, hS, if_true]
  · rw [l.writes_handlerStart r s, hS]
  · rw [l.LogRequest_run next r s]
    rfl
  · rw [l.log_LogRequest next r s, hS, hE]
    rfl

/-- C1, on the sample request with the log file open: the log gains the START
entry and the END entry around a handler that logs nothing itself. -/
theorem C1_start_handler_end_witness :
    (((sampleLogger "text").LogRequest notFoundHandler sampleRequest).run sampleWorld).2.log 0 =
      ["old\n",
       "2026/11/02 09:05:10 Mon, 02 Nov 2026 09:05:09 UTC [START] 127.0.0.1:5000 GET /index.html 0 1.5µs\n",
       "2026/11/02 09:05:13 Mon, 02 Nov 2026 09:05:12 UTC [END] 127.0.0.1:5000 GET /index.html 404 6µs\n"] := by
  have h := (C1_start_handler_end (sampleLogger "text") notFoundHandler sampleRequest sampleWorld
    (by decide) (by decide)).2.2.2.2.2
  exact h.trans (by decide)
/-- C2.  When the sink operations of the call contain `WriteHeader` with the
codes `cs` and then `cn`, in this order among any header and body writes, the
END entry, which is the last write of the decorated handler, reports `cn`;
the log file gains this entry when the write succeeds. -/
theorem C2_end_reports_last_code (l : Logger) (next : Handler) (r : Request) (s : World)
    (cs : List Int) (cn : Int)
    (h : statusCodes (((l.LogRequest next r).run s).2.opsSince s) = cs ++ [cn]) :
    ((l.LogRequest next r).run s).2.writes.getLast? =
      some ⟨l.logger.out,
        l.entry (((next r).run (l.handlerStart r s)).2.advance 1) r cn
          (endDuration s ((next r).run (l.handlerStart r s)).2) "END",
        ((next r).run (l.handlerStart r s)).2.writable l.logger.out⟩ ∧
    ((l.LogRequest next r).run s).2.log l.logger.out =
      ((next r).run (l.handlerStart r s)).2.log l.logger.out ++
        (if ((next r).run (l.handlerStart r s)).2.writable l.logger.out then
          [l.entry (((next r).run (l.handlerStart r s)).2.advance 1) r cn
            (endDuration s ((next r).run (l.handlerStart r s)).2) "END"] else []) := by
  have hc : lastStatus (((next r).run (l.handlerStart r s)).2.opsSince (l.handlerStart r s)) 0
      = cn := by
    rw [← l.opsSince_LogRequest next r s, lastStatus_eq, h]
    simp
  constructor
  · rw [l.writes_LogRequest next r s, hc]
    exact List.getLast?_concat _
  · rw [l.LogRequest_run next r s, Logger.log_afterEntry, hc]
    rfl

/-- C2, on the handler that sets 404 and then writes a body: the END entry
reports 404. -/
theorem C2_end_reports_last_code_witness :
    ((((sampleLogger "text").LogRequest notFoundHandler sampleRequest).run
      sampleWorld).2.writes.getLast?).map (fun c => c.data) =
      some "2026/11/02 09:05:13 Mon, 02 Nov 2026 09:05:12 UTC [END] 127.0.0.1:5000 GET /index.html 404 6µs\n" := by
  have h := (C2_end_reports_last_code (sampleLogger "text") notFoundHandler sampleRequest
    sampleWorld [] 404 (by decide)).1
  rw [h]
  decide

/-- C7, as stated, fails on a handler that writes a body and never calls
`WriteHeader`: the START entry and the END entry report 0, not 200. -/
theorem C7_counterexample_body_only :
    statusCodes ((((sampleLogger "text").LogRequest bodyOnlyHandler sampleRequest).run
      sampleWorld).2.opsSince sampleWorld) = [] ∧
    (((sampleLogger "text").LogRequest bodyOnlyHandler sampleRequest).run
      sampleWorld).2.writes.map (fun c => c.data) =
      ["2026/11/02 09:05:10 Mon, 02 Nov 2026 09:05:09 UTC [START] 127.0.0.1:5000 GET /index.html 0 1.5µs\n",
       "2026/11/02 09:05:13 Mon, 02 Nov 2026 09:05:12 UTC [END] 127.0.0.1:5000 GET /index.html 0 6µs\n"] ∧
    (((sampleLogger "text").LogRequest bodyOnlyHandler sampleRequest).run
      sampleWorld).2.writes.map (fun c => c.data) ≠
      [(sampleLogger "text").entry (sampleWorld.advance 2) sampleRequest 200
          (startDuration sampleWorld) "START",
       (sampleLogger "text").entry
          (((bodyOnlyHandler sampleRequest).run
            ((sampleLogger "text").handlerStart sampleRequest sampleWorld)).2.advance 1)
          sampleRequest 200
          (endDuration sampleWorld ((bodyOnlyHandler sampleRequest).run
            ((sampleLogger "text").handlerStart sampleRequest sampleWorld)).2) "END"] := by
  refine ⟨by decide, by decide, by decide⟩

/-- C7 (amended).  The status code of a freshly created observer is the zero
value 0: the START entry of every call reports 0, and when the sink operations
of the call contain no `WriteHeader` the END entry reports 0 as well. -/
theorem C7_default_status_is_zero (l : Logger) (next : Handler) (r : Request) (s : World)
    (h : statusCodes (((l.LogRequest next r).run s).2.opsSince s) = []) :
    ((l.LogRequest next r).run s).2.writes =
      s.writes ++
        [⟨l.logger.out, l.entry (s.advance 2) r 0 (startDuration s) "START",
          s.writable l.logger.out⟩] ++
        ((next r).run (l.handlerStart r s)).2.writesSince (l.handlerStart r s) ++
        [⟨l.logger.out,
          l.entry (((next r).run (l.handlerStart r s)).2.advance 1) r 0
            (endDuration s ((next r).run (l.handlerStart r s)).2) "END",
          ((next r).run (l.handlerStart r s)).2.writable l.logger.out⟩] := by
  have hc : lastStatus (((next r).run (l.handlerStart r s)).2.opsSince (l.handlerStart r s)) 0
      = 0 := by
    rw [← l.opsSince_LogRequest next r s, lastStatus_eq, h]
    simp
  rw [l.writes_LogRequest next r s, hc]

/-- C7 (amended), on the handler that only writes a body. -/
theorem C7_default_status_is_zero_witness :
    ((((sampleLogger "text").LogRequest bodyOnlyHandler sampleRequest).run
      sampleWorld).2.writes.getLast?).map (fun c => c.data) =
      some "2026/11/02 09:05:13 Mon, 02 Nov 2026 09:05:12 UTC [END] 127.0.0.1:5000 GET /index.html 0 6µs\n" := by
  have h := C7_default_status_is_zero (sampleLogger "text") bodyOnlyHandler sampleRequest
    sampleWorld (by decide)
  rw [h]
  decide

/-- C8.  When the sink operations of the call contain no `WriteHeader`, body
writes or not, an observer ends the handler with the code it started with, so
the code changes through `WriteHeader` only; the END entry then reports the
zero value 0 of the fresh observer, as the START entry does. -/
theorem C8_unset_status_stays_zero (l : Logger) (next : Handler) (r : Request) (s : World)
    (w : statusCodeResponseWriter)
    (h : statusCodes (((l.LogRequest next r).run s).2.opsSince s) = []) :
    ((w.serve (next r)).run (l.handlerStart r s)).1 = w ∧
    ((l.LogRequest next r).run s).2.log l.logger.out =
      s.log l.logger.out ++
        (if s.writable l.logger.out then
          [l.entry (s.advance 2) r 0 (startDuration s) "START"] else []) ++
        ((next r).run (l.handlerStart r s)).2.logSince (l.handlerStart r s) l.logger.out ++
        (if ((next r).run (l.handlerStart r s)).2.writable l.logger.out then
          [l.entry (((next r).run (l.handlerStart r s)).2.advance 1) r 0
            (endDuration s ((next r).run (l.handlerStart r s)).2) "END"] else []) := by
  have hc : ∀ c : Int,
      lastStatus (((next r).run (l.handlerStart r s)).2.opsSince (l.handlerStart r s)) c
      = c := by
    intro c
    rw [← l.opsSince_LogRequest next r s, lastStatus_eq, h]
    simp
  constructor
  · rw [statusCodeResponseWriter.serve_run, hc]
  · rw [l.log_LogRequest next r s, hc]

/-- C8, on the handler that only writes a body: both entries in the file
report 0. -/
theorem C8_unset_status_stays_zero_witness :
    (((sampleLogger "text").LogRequest bodyOnlyHandler sampleRequest).run sampleWorld).2.log 0 =
      ["old\n",
       "2026/11/02 09:05:10 Mon, 02 Nov 2026 09:05:09 UTC [START] 127.0.0.1:5000 GET /index.html 0 1.5µs\n",
       "2026/11/02 09:05:13 Mon, 02 Nov 2026 09:05:12 UTC [END] 127.0.0.1:5000 GET /index.html 0 6µs\n"] :=
  (C8_unset_status_stays_zero (sampleLogger "text") bodyOnlyHandler sampleRequest sampleWorld
    ⟨0⟩ (by decide)).2.trans (by decide)
/-- C5.  Decorators nest.  Serving a request with `l1.LogRequest(l2.LogRequest(h))`
makes, in this order: the START entry of `l1`, the START entry of `l2`, one run
of `h`, the END entry of `l2`, the END entry of `l1`, and no other write of
its own; neither Logger sends anything to the sink; and both END entries
report the same code, the last one `h` passed to `WriteHeader` (0 when it
passed none). -/
theorem C5_nested_decorators (l1 l2 : Logger) (h : Handler) (r : Request) (s : World) :
    let s1 := l1.handlerStart r s
    let s2 := l2.handlerStart r s1
    let s3 := ((h r).run s2).2
    let code := lastStatus (s3.opsSince s2) 0
    let s4 := l2.afterEntry (s3.advance 1) r code (endDuration s1 s3) "END"
    ((l1.LogRequest (l2.LogRequest h) r).run s).2 =
      l1.afterEntry (s4.advance 1) r code (endDuration s s4) "END" ∧
    ((l1.LogRequest (l2.LogRequest h) r).run s).2.writes =
      s.writes ++
        [⟨l1.logger.out, l1.entry (s.advance 2) r 0 (startDuration s) "START",
          s.writable l1.logger.out⟩] ++
        [⟨l2.logger.out, l2.entry (s1.advance 2) r 0 (startDuration s1) "START",
          s1.writable l2.logger.out⟩] ++
        s3.writesSince s2 ++
        [⟨l2.logger.out, l2.entry (s3.advance 1) r code (endDuration s1 s3) "END",
          s3.writable l2.logger.out⟩] ++
        [⟨l1.logger.out, l1.entry (s4.advance 1) r code (endDuration s s4) "END",
          s4.writable l1.logger.out⟩] ∧
    s2.sink = s.sink ∧
    ((l1.LogRequest (l2.LogRequest h) r).run s).2.sink = s3.sink := by
  intro s1 s2 s3 code s4
  have hin : ((l2.LogRequest h r).run s1).2 = s4 := by
    rw [l2.LogRequest_run h r s1]
    rfl
  have hops : s4.opsSince s1 = s3.opsSince s2 := by
    simp only [World.opsSince, s4, s2, Logger.sink_afterEntry, Logger.sink_handlerStart,
      World.advance]
  have hw4 : s4.writes = s1.writes ++
      [⟨l2.logger.out, l2.entry (s1.advance 2) r 0 (startDuration s1) "START",
        s1.writable l2.logger.out⟩] ++ s3.writesSince s2 ++
      [⟨l2.logger.out, l2.entry (s3.advance 1) r code (endDuration s1 s3) "END",
        s3.writable l2.logger.out⟩] := by
    rw [← hin]
    exact l2.writes_LogRequest h r s1
  have hfin : ((l1.LogRequest (l2.LogRequest h) r).run s).2 =
      l1.afterEntry (s4.advance 1) r code (endDuration s s4) "END" := by
    rw [l1.LogRequest_run (l2.LogRequest h) r s]
    show l1.afterEntry ((((l2.LogRequest h) r).run s1).2.advance 1) r
      (lastStatus ((((l2.LogRequest h) r).run s1).2.opsSince s1) 0)
      (endDuration s (((l2.LogRequest h) r).run s1).2) "END" = _
    rw [hin, hops]
  refine ⟨hfin, ?_, ?_, ?_⟩
  · rw [hfin, Logger.writes_afterEntry]
    show s4.writes ++ _ = _
    rw [hw4, l1.writes_handlerStart r s]
    simp only [List.append_assoc]
    rfl
  · simp only [s2, s1, Logger.sink_handlerStart]
  · rw [hfin]
    simp only [Logger.sink_afterEntry, World.advance, s4]

/-- C5, on the sample request with the same
Logger used twice: two START and two END entries, properly nested, both END
entries with 404. -/
theorem C5_nested_decorators_witness :
    (((sampleLogger "text").LogRequest ((sampleLogger "text").LogRequest notFoundHandler)
      sampleRequest).run sampleWorld).2.log 0 =
      ["old\n",
       "2026/11/02 09:05:10 Mon, 02 Nov 2026 09:05:09 UTC [START] 127.0.0.1:5000 GET /index.html 0 1.5µs\n",
       "2026/11/02 09:05:14 Mon, 02 Nov 2026 09:05:13 UTC [START] 127.0.0.1:5000 GET /index.html 0 1.5µs\n",
       "2026/11/02 09:05:17 Mon, 02 Nov 2026 09:05:16 UTC [END] 127.0.0.1:5000 GET /index.html 404 6µs\n",
       "2026/11/02 09:05:20 Mon, 02 Nov 2026 09:05:19 UTC [END] 127.0.0.1:5000 GET /index.html 404 16.5µs\n"] := by
  have h := (C5_nested_decorators (sampleLogger "text") (sampleLogger "text") notFoundHandler
    sampleRequest sampleWorld).1
  rw [h]
  decide
/-- C4.  For a Logger whose format is not exactly `json`, the message of an
entry is the timestamp, the stage in square brackets, the client address, the
method, the path, the status code in decimal and the duration, in this order,
each two separated by one space, and it is the same message under any other
format that is not `json`.  A call of `logRequestDetails` reads the clock for
the timestamp, hands exactly this message to the line writer, which makes one
`Write` of it on the destination, and returns.  `NewLogger` raises no
validation error: it accepts the format whenever the file opens and stores it
unchanged, and it fails only with the error of `os.OpenFile`. -/
theorem C4_text_layout (l : Logger) (hfmt : l.logFormat ≠ "json") (timestamp : String)
    (r : Request) (statusCode : Int) (duration : Duration) (stage : String) :
    l.logMessage timestamp r statusCode duration stage =
      timestamp ++ " [" ++ stage ++ "] " ++ r.RemoteAddr ++ " " ++ r.Method ++ " " ++
        r.URL.Path ++ " " ++ toString statusCode ++ " " ++ Duration.String duration ∧
    (∀ l2 : Logger, l2.logFormat ≠ "json" →
      l2.logMessage timestamp r statusCode duration stage =
        l.logMessage timestamp r statusCode duration stage) ∧
    (∀ (logFilePath : String) (s : World),
      (NewLogger logFilePath l.logFormat).run s =
        (((NewLogger logFilePath "json").run s).1.map
            (fun l1 => { l1 with logFormat := l.logFormat }),
          ((NewLogger logFilePath "json").run s).2)) ∧
    (∀ s : World,
      (l.logRequestDetails r statusCode duration stage).run s =
        ((), ((s.advance 2).fileWrite l.logger.out
          (log.line l.logger (s.clock (s.ticks + 1))
            ((s.clock s.ticks).FormatRFC1123 ++ " [" ++ stage ++ "] " ++ r.RemoteAddr ++ " " ++
              r.Method ++ " " ++ r.URL.Path ++ " " ++ toString statusCode ++ " " ++
              Duration.String duration))).2)) ∧
    (∀ s : World,
      ((l.logRequestDetails r statusCode duration stage).run s).2.writes =
        s.writes ++
          [⟨l.logger.out,
            log.line l.logger (s.clock (s.ticks + 1))
              ((s.clock s.ticks).FormatRFC1123 ++ " [" ++ stage ++ "] " ++ r.RemoteAddr ++ " " ++
                r.Method ++ " " ++ r.URL.Path ++ " " ++ toString statusCode ++ " " ++
                Duration.String duration),
            s.writable l.logger.out⟩]) ∧
    (∀ (l2 : Logger) (s : World), l2.logFormat ≠ "json" → l2.logger = l.logger →
      (l2.logRequestDetails r statusCode duration stage).run s =
        (l.logRequestDetails r statusCode duration stage).run s) ∧
    (∀ (logFilePath : String) (s : World),
      match (s.openFile logFilePath).1 with
      | .ok fd =>
        (NewLogger logFilePath l.logFormat).run s =
          (.ok { logFormat := l.logFormat, logFile := fd,
                 logger := log.New fd "" log.LstdFlags }, (s.openFile logFilePath).2)
      | .error e =>
        (NewLogger logFilePath l.logFormat).run s =
          (.error ("could not open log file: " ++ e), s)) := by
  have key : ∀ (l1 : Logger) (ts : String), l1.logFormat ≠ "json" →
      l1.logMessage ts r statusCode duration stage =
        ts ++ " [" ++ stage ++ "] " ++ r.RemoteAddr ++ " " ++ r.Method ++ " " ++
          r.URL.Path ++ " " ++ toString statusCode ++ " " ++ Duration.String duration := by
    intro l1 ts h1
    simp only [Logger.logMessage, h1, if_false]
    exact Sprintf_text _ _ _ _ _ _ _
  have hrun : ∀ (l1 : Logger) (s : World), l1.logFormat ≠ "json" →
      (l1.logRequestDetails r statusCode duration stage).run s =
        ((), ((s.advance 2).fileWrite l1.logger.out
          (log.line l1.logger (s.clock (s.ticks + 1))
            ((s.clock s.ticks).FormatRFC1123 ++ " [" ++ stage ++ "] " ++ r.RemoteAddr ++ " " ++
              r.Method ++ " " ++ r.URL.Path ++ " " ++ toString statusCode ++ " " ++
              Duration.String duration))).2) := by
    intro l1 s h1
    rw [Logger.logRequestDetails_run, Logger.afterEntry, Logger.entry, key l1 _ h1]
  refine ⟨key l timestamp hfmt,
    fun l2 h2 => (key l2 timestamp h2).trans (key l timestamp hfmt).symm, ?_,
    fun s => hrun l s hfmt, ?_, ?_, ?_⟩
  · intro logFilePath s
    simp only [NewLogger, Prog.run]
    cases h : (s.openFile logFilePath).1 with
    | error e => rfl
    | ok fd => rfl
  · intro s
    rw [hrun l s hfmt, World.writes_fileWrite]
    rfl
  · intro l2 s h2 hlog
    rw [hrun l2 s h2, hrun l s hfmt, hlog]
  · intro logFilePath s
    cases h : (s.openFile logFilePath).1 with
    | error e =>
      simp only [NewLogger, Prog.run, h]
      rw [World.openFile_error s logFilePath e h]
    | ok fd =>
      simp only [NewLogger, Prog.run, h]

/-- C4, on the format `JSON`, which is not the marker `json`: `NewLogger`
accepts it, and `logRequestDetails` writes one line with the text layout. -/
theorem C4_text_layout_witness :
    ((NewLogger "/var/log/access.log" "JSON").run bootWorld).1 = .ok (sampleLogger "JSON") ∧
    (sampleLogger "JSON").logMessage "Mon, 02 Nov 2026 09:05:09 UTC" sampleRequest 404 1500
      "END" = "Mon, 02 Nov 2026 09:05:09 UTC [END] 127.0.0.1:5000 GET /index.html 404 1.5µs" ∧
    (((sampleLogger "JSON").logRequestDetails sampleRequest 404 1500 "END").run
      sampleWorld).2.writes =
      [⟨0, "2026/11/02 09:05:08 Mon, 02 Nov 2026 09:05:07 UTC [END] 127.0.0.1:5000 GET /index.html 404 1.5µs\n",
        true⟩] :=
  ⟨by rfl,
    (C4_text_layout (sampleLogger "JSON") (by decide) "Mon, 02 Nov 2026 09:05:09 UTC"
      sampleRequest 404 1500 "END").1.trans (by decide),
    ((C4_text_layout (sampleLogger "JSON") (by decide) "" sampleRequest 404 1500
      "END").2.2.2.2.1 sampleWorld).trans (by decide)⟩

/-- C10.  `NewLogger` fails exactly when `os.OpenFile` fails.  Then it returns
the wrapped error and no Logger, and leaves the world as it was.  Otherwise it
returns a Logger that holds the format as given, the handle just opened and a
line writer on that handle, and the world differs only by the new handle (and
the file created empty when it was absent): no file changes content and no
`Write` is made. -/
theorem C10_NewLogger (logFilePath logFormat : String) (s : World) :
    ((∃ e, ((NewLogger logFilePath logFormat).run s).1 = .error e) ↔
      ∃ e, (s.openFile logFilePath).1 = .error e) ∧
    (match (s.openFile logFilePath).1 with
     | .error e =>
       (NewLogger logFilePath logFormat).run s = (.error ("could not open log file: " ++ e), s)
     | .ok fd =>
       (NewLogger logFilePath logFormat).run s =
         (.ok { logFormat := logFormat, logFile := fd,
                logger := log.New fd "" log.LstdFlags }, (s.openFile logFilePath).2) ∧
       ((NewLogger logFilePath logFormat).run s).2.fds = s.fds ++ [⟨logFilePath, false⟩] ∧
       fd = s.fds.length ∧
       ((NewLogger logFilePath logFormat).run s).2.writes = s.writes ∧
       (∀ q, ((NewLogger logFilePath logFormat).run s).2.content q = s.content q)) := by
  constructor
  · simp only [NewLogger, Prog.run]
    cases h : (s.openFile logFilePath).1 with
    | error e => simp [Prog.run]
    | ok fd => simp [Prog.run]
  · cases h : (s.openFile logFilePath).1 with
    | error e =>
      simp only [NewLogger, Prog.run, h]
      rw [World.openFile_error s logFilePath e h]
    | ok fd =>
      obtain ⟨h1, h2, h3, _, _, h6, _⟩ := World.openFile_ok s logFilePath fd h
      simp only [NewLogger, Prog.run, h]
      exact ⟨trivial, h2, h1, h3, h6⟩

/-- C10, on the sample file system: a directory and a path in a missing
directory are refused and nothing changes; an existing file and a new file in
an existing directory are opened, without any write. -/
theorem C10_NewLogger_examples :
    ((NewLogger "/var/log" "text").run bootWorld).1 =
      .error "could not open log file: open /var/log: is a directory" ∧
    ((NewLogger "/nonexistent/access.log" "text").run bootWorld).1 =
      .error "could not open log file: open /nonexistent/access.log: no such file or directory" ∧
    ((NewLogger "/var/log" "text").run bootWorld).2.disk = bootWorld.disk ∧
    ((NewLogger "/nonexistent/access.log" "text").run bootWorld).2.disk = bootWorld.disk ∧
    ((NewLogger "/var/log/access.log" "json").run bootWorld).1 = .ok (sampleLogger "json") ∧
    ((NewLogger "/var/log/access.log" "json").run bootWorld).2.disk = bootWorld.disk ∧
    ((NewLogger "/var/log/access.log" "json").run bootWorld).2.fds = sampleWorld.fds ∧
    ((NewLogger "/var/log/new.log" "text").run bootWorld).1 = .ok (sampleLogger "text") ∧
    ((NewLogger "/var/log/new.log" "text").run bootWorld).2.content "/var/log/new.log" = [] ∧
    ((NewLogger "/var/log/new.log" "text").run bootWorld).2.writes = [] := by
  refine ⟨by rfl, by rfl, by decide, by decide, by rfl, by decide, by decide,
    by rfl, by decide, by decide⟩
set_option maxRecDepth 1000000 in
/-- C3.  The code at the failing input.  A line written by a Logger of
`NewLogger` starts with the date and time of the line writer
(`log.LstdFlags`), so no line is a JSON object, whatever the request; for the
sample request with the format `json` the two lines are shown, and the message
after the header is the specified object; for a path that holds a double quote
the message itself is not a JSON object, the quote being copied without
escape. -/
theorem C3_json_line_is_not_json :
    (∀ (logFormat : String) (fd : Fd) (s : World) (r : Request) (c : Int) (d : Duration)
        (stage : String),
      parseJsonObject
        ((Logger.mk logFormat fd (log.New fd "" log.LstdFlags)).entry s r c d stage) = none) ∧
    (((sampleLogger "json").LogRequest notFoundHandler sampleRequest).run
      sampleWorld).2.writes.map (fun c => c.data) =
      ["2026/11/02 09:05:10 \x7b\"timestamp\": \"Mon, 02 Nov 2026 09:05:09 UTC\", \"stage\": \"START\", \"client_ip\": \"127.0.0.1:5000\", \"method\": \"GET\", \"path\": \"/index.html\", \"status_code\": 0, \"duration\": \"1.5µs\"\x7d\n",
       "2026/11/02 09:05:13 \x7b\"timestamp\": \"Mon, 02 Nov 2026 09:05:12 UTC\", \"stage\": \"END\", \"client_ip\": \"127.0.0.1:5000\", \"method\": \"GET\", \"path\": \"/index.html\", \"status_code\": 404, \"duration\": \"6µs\"\x7d\n"] ∧
    (((sampleLogger "json").LogRequest notFoundHandler sampleRequest).run
      sampleWorld).2.writes.map (fun c => parseJsonObject c.data) = [none, none] ∧
    isEntryObject
      ((sampleLogger "json").logMessage "Mon, 02 Nov 2026 09:05:12 UTC" sampleRequest 404 6000
        "END") sampleRequest = true ∧
    (sampleLogger "json").logMessage "Mon, 02 Nov 2026 09:05:12 UTC" quoteRequest 404 6000 "END" =
      "\x7b\"timestamp\": \"Mon, 02 Nov 2026 09:05:12 UTC\", \"stage\": \"END\", \"client_ip\": \"127.0.0.1:5000\", \"method\": \"GET\", \"path\": \"/a\"b\", \"status_code\": 404, \"duration\": \"6µs\"\x7d" ∧
    parseJsonObject
      ((sampleLogger "json").logMessage "Mon, 02 Nov 2026 09:05:12 UTC" quoteRequest 404 6000
        "END") = none := by
  refine ⟨entry_never_json, by decide, by decide, by decide, by decide, by decide⟩

end accesslog
